import Mathlib

/-!
Fitness evaluators of the mesh unfolder (UnfoldingEvaluator.cpp)

A shallow embedding of `src/UnfoldingEvaluator.cpp` (namespace `masc::unfolding`).

Conventions of the embedding:

* C++ `int` is a Lean `Int` in the range `[-2^31, 2^31)`; every arithmetic result on
  `int` is brought back into that range by `wrapInt32` (wrap-around modulo 2^32).
* C++ `float` / `double` values (area ratios, match distances, `FLT_MAX`) are rationals:
  the code only compares and copies them, apart from the final `1.0 / min_error`,
  which is embedded by `oneOver`.
* Collaborators whose code is not part of this file (the unfolder, the pixel checker,
  the curve matcher, `model2poly`) are represented by the values they hand back
  during one call.
-/

namespace masc
namespace unfolding

/-! ## Machine integers -/

/-- Reduction modulo 2^32 of an integer to the range of a 32 bit `int`. -/
def wrapInt32 (x : Int) : Int :=
  (x + 2147483648) % 4294967296 - 2147483648

/-- C++ `a + b` on `int`. -/
def addInt32 (a b : Int) : Int := wrapInt32 (a + b)

/-- C++ `a * b` on `int`. -/
def mulInt32 (a b : Int) : Int := wrapInt32 (a * b)

/-- C++ unary `-a` on `int`. -/
def negInt32 (a : Int) : Int := wrapInt32 (-a)

/-- Largest value of a 32 bit `int`. -/
def INT_MAX : Int := 2147483647

/-! ## OverlappingEvaluator -/

/-- What the unfolder hands back during one `OverlappingEvaluator::evaluate` call. -/
structure OverlapCall where
  /-- return value of `m_unfolder->buildFromWeights(ind->getGenome())` -/
  global_overlaps : Int
  /-- return value of `m_unfolder->checkLocalOverlaps()` -/
  local_overlaps : Int
  deriving DecidableEq, Repr

/-- Embedding of `OverlappingEvaluator::evaluate`:
`double fitness = -(global_overlaps + local_overlaps * 100); return fitness;`
The expression is evaluated on `int` and only then converted to `double`, which
represents every 32 bit integer exactly, so the returned double is this integer. -/
def OverlappingEvaluator.evaluate (c : OverlapCall) : Int :=
  negInt32 (addInt32 c.global_overlaps (mulInt32 c.local_overlaps 100))

/-! ## AreaEvaluator -/

/-- Persistent state of an `AreaEvaluator`. -/
structure AreaEvaluator where
  m_best_ratio : ℚ
  deriving DecidableEq

/-- Constructor `AreaEvaluator::AreaEvaluator`: `m_best_ratio = 1e3;` -/
def AreaEvaluator.construct : AreaEvaluator := { m_best_ratio := 1000 }

/-- What the collaborators hand back during one `AreaEvaluator::evaluate` call. -/
structure AreaCall where
  /-- return value of `m_checker->checkOverlapping(getUnfolded(), getConfig())` -/
  area_ratio : ℚ
  /-- value of `m_unfolder->getModel()->t_size` -/
  t_size : Nat
  /-- value `m_unfolder->checkOverlaps()` returns when it is called -/
  checkOverlaps : Int
  deriving DecidableEq

/-- Outcome of one `AreaEvaluator::evaluate` call. -/
structure AreaResult where
  /-- the evaluator after the call -/
  state : AreaEvaluator
  /-- the returned double, `-overlaps` converted from `int` -/
  fitness : Int
  /-- how many times `m_unfolder->checkOverlaps()` was invoked -/
  checkOverlapsCalls : Nat
  deriving DecidableEq

/-- Embedding of `AreaEvaluator::evaluate`.
```
int overlaps = t_size * t_size;                       // maximum overlaps
if (area_ratio < m_best_ratio * 1.01) overlaps = m_unfolder->checkOverlaps();
if (area_ratio < m_best_ratio) m_best_ratio = area_ratio;
return -overlaps;
```
The product is stored in an `int`, hence reduced by `wrapInt32` whatever the
integer type of `t_size` is. -/
def AreaEvaluator.evaluate (s : AreaEvaluator) (c : AreaCall) : AreaResult :=
  let overlaps0 : Int := wrapInt32 ((c.t_size : Int) * (c.t_size : Int))
  let checked : Bool := decide (c.area_ratio < s.m_best_ratio * (101 / 100))
  let overlaps : Int := if checked then c.checkOverlaps else overlaps0
  let best : ℚ := if c.area_ratio < s.m_best_ratio then c.area_ratio else s.m_best_ratio
  { state := { m_best_ratio := best }
    fitness := negInt32 overlaps
    checkOverlapsCalls := if checked then 1 else 0 }

/-- The evaluator after one call. -/
def AreaEvaluator.step (s : AreaEvaluator) (c : AreaCall) : AreaEvaluator :=
  (s.evaluate c).state

/-- The successive values of `m_best_ratio` after each call of a sequence. -/
def AreaEvaluator.trace (s : AreaEvaluator) : List AreaCall → List ℚ
  | [] => []
  | c :: cs => (s.step c).m_best_ratio :: AreaEvaluator.trace (s.step c) cs

/-! ## PolygonFitEvaluator -/

/-- Constant `FLT_MAX` of `<cfloat>`, the largest finite `float`: `(2 - 2^-23) * 2^127`. -/
def FLT_MAX : ℚ := 340282346638528859811704183484516925440

/-- A `double` that results from a division: a finite value or `+inf`. -/
inductive DoubleVal where
  | finite (q : ℚ)
  | posInf
  deriving DecidableEq

/-- C++ `1.0 / x` for a `double` divisor `x` (IEEE: `1.0 / 0.0` is `+inf`). -/
def oneOver (x : ℚ) : DoubleVal :=
  if x = 0 then DoubleVal.posInf else DoubleVal.finite (1 / x)

/-- A curve segment of a contour data base, a `cv::Point`; `evaluate` stores its `x`
in the `best_*_off` members and its `y` in the `best_*_len` members. -/
structure CurveSegment where
  x : Int
  y : Int
  deriving DecidableEq, Repr, Inhabited

/-- One entry of `CSShape::contourDBs`: the contour, its curve segments and the
curvature samples of each segment. -/
structure ContourDB where
  cv_contour : List CurveSegment
  curve_segments : List CurveSegment
  curvatures : List (List ℚ)
  deriving DecidableEq, Inhabited

/-- The part of `CSShape<MATCHER, CVPT>` the evaluator reads. -/
structure CSShape where
  contourDBs : List ContourDB
  deriving DecidableEq, Inhabited

/-- Read `v[i]` on a `std::vector` of curve segments with an `int` index. The read is
unchecked in C++; outside the vector the embedding yields the default segment. -/
def segAt (v : List CurveSegment) (i : Int) : CurveSegment :=
  v.getD i.toNat default

/-- Read `shape->contourDBs[0]` ("only consider the first contour"). -/
def CSShape.firstDB (shape : CSShape) : ContourDB :=
  shape.contourDBs.getD 0 default

/-- The fields of `cv::DMatch` the evaluator reads after a comparison. -/
structure DMatch where
  /-- index of the matched source segment, negative for "no match" -/
  queryIdx : Int
  /-- distance of the match -/
  distance : ℚ
  deriving DecidableEq

/-- Persistent state of a `PolygonFitEvaluator`. -/
structure PolygonFitEvaluator where
  /-- the target shape built from the stencil, `NULL` is `none` -/
  m_poly_ptr : Option CSShape
  /-- snapshot of the best net so far, `NULL` is `none` -/
  m_best_net_ptr : Option CSShape
  m_min_error : ℚ
  best_src_off : Int
  best_src_len : Int
  best_target_off : Int
  best_target_len : Int
  deriving DecidableEq

/-- Constructor `PolygonFitEvaluator::PolygonFitEvaluator` on the path that does not `exit(1)`:
`target` is the shape built from the stencil image. The member initialiser list is
`m_poly_ptr(NULL), m_best_net_ptr(NULL), m_min_error(FLT_MAX)` and the body ends with
`m_poly_ptr = target`; the four `best_*` members are not initialised, their
indeterminate values are the arguments `o1 l1 o2 l2`. -/
def PolygonFitEvaluator.construct (target : CSShape) (o1 l1 o2 l2 : Int) :
    PolygonFitEvaluator :=
  { m_poly_ptr := some target
    m_best_net_ptr := none
    m_min_error := FLT_MAX
    best_src_off := o1
    best_src_len := l1
    best_target_off := o2
    best_target_len := l2 }

/-- What the collaborators hand back during one `PolygonFitEvaluator::evaluate` call. -/
structure EvalCall where
  /-- the shape `model2poly` builds from `unfolder->getNet()` -/
  net : CSShape
  /-- the `match` that `CompareCurvesUsingSignatureDB_curvature_only` fills in
  iteration `j` of the loop -/
  matcher : Nat → DMatch

/-- The three locals the matching loop updates. -/
structure BestMatch where
  best_target_curve_segment : CurveSegment
  best_source_curve_segment : CurveSegment
  min_error : ℚ
  deriving DecidableEq

/-- The locals before the loop:
`best_target_curve_segment = target_db.curve_segments[0]`,
`best_source_curve_segment = source_db.curve_segments[0]`, `min_error = FLT_MAX`. -/
def matchInit (target_db source_db : ContourDB) : BestMatch :=
  { best_target_curve_segment := segAt target_db.curve_segments 0
    best_source_curve_segment := segAt source_db.curve_segments 0
    min_error := FLT_MAX }

/-- Body of the loop `for (int j = 0; j < cs_size; j++)`:
```
if (match.queryIdx < 0) continue;
if (match.distance >= min_error) continue;
best_target_curve_segment = target_db.curve_segments[j];
best_source_curve_segment = source_db.curve_segments[match.queryIdx];
min_error = match.distance;
``` -/
def matchStep (target_db source_db : ContourDB) (matcher : Nat → DMatch)
    (b : BestMatch) (j : Nat) : BestMatch :=
  if (matcher j).queryIdx < 0 then b
  else if (matcher j).distance ≥ b.min_error then b
  else
    { best_target_curve_segment := segAt target_db.curve_segments j
      best_source_curve_segment := segAt source_db.curve_segments (matcher j).queryIdx
      min_error := (matcher j).distance }

/-- The first `n` iterations of the matching loop. -/
def matchLoopUpTo (target_db source_db : ContourDB) (matcher : Nat → DMatch) (n : Nat) :
    BestMatch :=
  (List.range n).foldl (matchStep target_db source_db matcher)
    (matchInit target_db source_db)

/-- The whole matching loop, `cs_size = target_db.curve_segments.size()` iterations. -/
def matchLoop (target_db source_db : ContourDB) (matcher : Nat → DMatch) : BestMatch :=
  matchLoopUpTo target_db source_db matcher target_db.curve_segments.length

/-- Outcome of one `PolygonFitEvaluator::evaluate` call that returns. -/
structure EvalResult where
  /-- the evaluator after the call -/
  state : PolygonFitEvaluator
  /-- the returned double `1.0 / min_error` -/
  fitness : DoubleVal
  deriving DecidableEq

/-- The update after the loop:
```
if (min_error < m_min_error) {
  m_min_error = min_error;
  best_src_off = best_source_curve_segment.x;  best_src_len = best_source_curve_segment.y;
  best_target_off = best_target_curve_segment.x;  best_target_len = best_target_curve_segment.y;
  if (m_best_net_ptr == NULL) m_best_net_ptr = new CSShape<MATCHER, CVPT>();
  *m_best_net_ptr = net;
}
``` -/
def PolygonFitEvaluator.record (s : PolygonFitEvaluator) (b : BestMatch) (net : CSShape) :
    PolygonFitEvaluator :=
  if b.min_error < s.m_min_error then
    { m_poly_ptr := s.m_poly_ptr
      m_best_net_ptr := some net
      m_min_error := b.min_error
      best_src_off := b.best_source_curve_segment.x
      best_src_len := b.best_source_curve_segment.y
      best_target_off := b.best_target_curve_segment.x
      best_target_len := b.best_target_curve_segment.y }
  else s

/-- Embedding of `PolygonFitEvaluator::evaluate`. `none` is the `exit(1)` taken when `m_poly_ptr`
is `NULL`; otherwise the loop runs over the first contour of the target and of the
net, the persistent state is updated and `1.0 / min_error` is returned. -/
def PolygonFitEvaluator.evaluate (s : PolygonFitEvaluator) (c : EvalCall) :
    Option EvalResult :=
  match s.m_poly_ptr with
  | none => none
  | some target =>
    let b := matchLoop target.firstDB c.net.firstDB c.matcher
    some { state := s.record b c.net, fitness := oneOver b.min_error }

/-- Number of target curve segments of an evaluator, the `cs_size` of `evaluate`. -/
def PolygonFitEvaluator.cs_size (s : PolygonFitEvaluator) : Nat :=
  match s.m_poly_ptr with
  | none => 0
  | some target => target.firstDB.curve_segments.length

/-- The evaluator after one call (unchanged when the call exits the process). -/
def PolygonFitEvaluator.step (s : PolygonFitEvaluator) (c : EvalCall) :
    PolygonFitEvaluator :=
  match s.evaluate c with
  | some r => r.state
  | none => s

/-- The successive values of `m_min_error` after each call of a sequence. -/
def PolygonFitEvaluator.trace (s : PolygonFitEvaluator) : List EvalCall → List ℚ
  | [] => []
  | c :: cs => (s.step c).m_min_error :: PolygonFitEvaluator.trace (s.step c) cs

/-- The local `min_error` at the end of the loop of a call on target `target`: the
best match distance of the call. -/
def bestDistance (target : CSShape) (c : EvalCall) : ℚ :=
  (matchLoop target.firstDB c.net.firstDB c.matcher).min_error

/-- Evaluator states reachable from construction by `evaluate` calls. -/
inductive Reachable : PolygonFitEvaluator → Prop where
  | construct (target : CSShape) (o1 l1 o2 l2 : Int) :
      Reachable (PolygonFitEvaluator.construct target o1 l1 o2 l2)
  | evaluate (s : PolygonFitEvaluator) (c : EvalCall) (r : EvalResult) :
      Reachable s → s.evaluate c = some r → Reachable r.state

/-- Arguments of the `matcher.renderMatching(file, a, b, c, d)` call of the destructor.
The call `renderMatching(ss.str(), best_source_curve_segment.x,
best_source_curve_segment.y, best_target_curve_segment.x, best_target_curve_segment.y)`
in `evaluate` fixes the meaning of the positions: source offset, source length,
target offset, target length. -/
structure RenderCall where
  /-- the error printed into the file name -/
  error_in_name : ℚ
  src_off : Int
  src_len : Int
  target_off : Int
  target_len : Int
  deriving DecidableEq

/-- Destructor `PolygonFitEvaluator::~PolygonFitEvaluator`: when `target != NULL && source != NULL`
it calls `matcher.renderMatching(ss.str(), best_src_off, best_src_len, best_target_off,
best_src_len)`; `none` means nothing is rendered. -/
def PolygonFitEvaluator.destructor (s : PolygonFitEvaluator) : Option RenderCall :=
  match s.m_poly_ptr, s.m_best_net_ptr with
  | some _, some _ =>
    some { error_in_name := s.m_min_error
           src_off := s.best_src_off
           src_len := s.best_src_len
           target_off := s.best_target_off
           target_len := s.best_src_len }
  | _, _ => none

/-! ## Loop invariant -/

/-- Loop invariant after `n` iterations: `min_error` is at most the sentinel and at most
every matched distance seen so far; and either nothing was recorded yet (no matched
distance below the sentinel so far), or the recorded pair belongs to the first index
that attains `min_error`. -/
def LoopInv (tdb sdb : ContourDB) (matcher : Nat → DMatch) (n : Nat) (b : BestMatch) :
    Prop :=
  b.min_error ≤ FLT_MAX ∧
  (∀ i, i < n → 0 ≤ (matcher i).queryIdx → b.min_error ≤ (matcher i).distance) ∧
  ((b = matchInit tdb sdb ∧
      ∀ i, i < n → 0 ≤ (matcher i).queryIdx → FLT_MAX ≤ (matcher i).distance) ∨
    ∃ j, j < n ∧ 0 ≤ (matcher j).queryIdx ∧ (matcher j).distance = b.min_error ∧
      (matcher j).distance < FLT_MAX ∧
      (∀ i, i < j → 0 ≤ (matcher i).queryIdx → b.min_error < (matcher i).distance) ∧
      b.best_target_curve_segment = segAt tdb.curve_segments j ∧
      b.best_source_curve_segment = segAt sdb.curve_segments (matcher j).queryIdx)

/-! ## Example data -/

/-- A target shape whose first contour has the two curve segments `(20, 80)`, `(22, 90)`. -/
def exampleTarget : CSShape :=
  { contourDBs := [{ cv_contour := [], curve_segments := [⟨20, 80⟩, ⟨22, 90⟩],
                     curvatures := [[], []] }] }

/-- A net whose first contour has the two curve segments `(10, 70)`, `(12, 75)`. -/
def exampleNet : CSShape :=
  { contourDBs := [{ cv_contour := [], curve_segments := [⟨10, 70⟩, ⟨12, 75⟩],
                     curvatures := [[], []] }] }

/-- A call on `exampleNet` in which target segment `0` matches source segment `1` with
distance `d` and every other target segment has no match. -/
def exampleCall (d : ℚ) : EvalCall :=
  { net := exampleNet
    matcher := fun j => if j = 0 then { queryIdx := 1, distance := d }
                        else { queryIdx := -1, distance := FLT_MAX } }

/-- A call on `exampleNet` in which no target segment has a match. -/
def noMatchCall : EvalCall :=
  { net := exampleNet, matcher := fun _ => { queryIdx := -1, distance := FLT_MAX } }

/-- A call on `exampleNet` in which target segment `0` matches source segment `1` and
every later target segment matches source segment `0`, all with distance `4`. -/
def tieCall : EvalCall :=
  { net := exampleNet
    matcher := fun j => if j = 0 then { queryIdx := 1, distance := 4 }
                        else { queryIdx := 0, distance := 4 } }

/-- A freshly constructed evaluator for `exampleTarget`. -/
def exampleEvaluator : PolygonFitEvaluator :=
  PolygonFitEvaluator.construct exampleTarget 0 0 0 0

/-! ## Machine integer lemmas -/

theorem wrapInt32_of_range (x : Int) (hlo : -2147483648 ≤ x) (hhi : x ≤ 2147483647) :
    wrapInt32 x = x := by
  unfold wrapInt32
  omega

theorem wrapInt32_range (x : Int) :
    -2147483648 ≤ wrapInt32 x ∧ wrapInt32 x ≤ 2147483647 := by
  unfold wrapInt32
  omega

/-! ## OverlappingEvaluator: theorems -/

/-- C6 (as stated, refuted): with the non-negative `int` counts `global = 0` and
`local = 21474837` the product `local * 100` leaves the range of `int`; the value
returned is `2147483596`, which is positive and is not `-(global + local * 100)`. -/
theorem overlapping_fitness_positive_on_overflow :
    (0 : Int) ≤ 0 ∧ (0 : Int) ≤ 21474837 ∧ (21474837 : Int) ≤ INT_MAX ∧
    OverlappingEvaluator.evaluate { global_overlaps := 0, local_overlaps := 21474837 }
      = 2147483596 ∧
    ¬ OverlappingEvaluator.evaluate { global_overlaps := 0, local_overlaps := 21474837 } ≤ 0 ∧
    OverlappingEvaluator.evaluate { global_overlaps := 0, local_overlaps := 21474837 }
      ≠ -(0 + 21474837 * 100) := by
  decide

/-- C6 (amended): for non-negative overlap counts whose weighted sum
`global + local * 100` fits in an `int`, `OverlappingEvaluator::evaluate` returns
`-(global + local * 100)`; this value is `≤ 0`, and it is `0` exactly when both
counts are `0`. -/
theorem overlapping_fitness_nonpositive (c : OverlapCall)
    (hg : 0 ≤ c.global_overlaps) (hl : 0 ≤ c.local_overlaps)
    (hfit : c.global_overlaps + c.local_overlaps * 100 ≤ INT_MAX) :
    OverlappingEvaluator.evaluate c = -(c.global_overlaps + c.local_overlaps * 100) ∧
    OverlappingEvaluator.evaluate c ≤ 0 ∧
    (OverlappingEvaluator.evaluate c = 0 ↔
      c.global_overlaps = 0 ∧ c.local_overlaps = 0) := by
  unfold INT_MAX at hfit
  have hmul : mulInt32 c.local_overlaps 100 = c.local_overlaps * 100 := by
    unfold mulInt32
    exact wrapInt32_of_range _ (by omega) (by omega)
  have hadd : addInt32 c.global_overlaps (c.local_overlaps * 100)
      = c.global_overlaps + c.local_overlaps * 100 := by
    unfold addInt32
    exact wrapInt32_of_range _ (by omega) (by omega)
  have hneg : negInt32 (c.global_overlaps + c.local_overlaps * 100)
      = -(c.global_overlaps + c.local_overlaps * 100) := by
    unfold negInt32
    exact wrapInt32_of_range _ (by omega) (by omega)
  have hval : OverlappingEvaluator.evaluate c
      = -(c.global_overlaps + c.local_overlaps * 100) := by
    unfold OverlappingEvaluator.evaluate
    rw [hmul, hadd, hneg]
  refine ⟨hval, ?_, ?_⟩
  · rw [hval]; omega
  · rw [hval]
    constructor
    · intro h; constructor <;> omega
    · rintro ⟨h1, h2⟩; rw [h1, h2]; decide

/-- Witness of `overlapping_fitness_nonpositive` at `global = 3`, `local = 2`. -/
theorem overlapping_fitness_nonpositive_witness :
    OverlappingEvaluator.evaluate { global_overlaps := 3, local_overlaps := 2 }
      = -((3 : Int) + 2 * 100) ∧
    OverlappingEvaluator.evaluate { global_overlaps := 3, local_overlaps := 2 } ≤ 0 ∧
    (OverlappingEvaluator.evaluate { global_overlaps := 3, local_overlaps := 2 } = 0 ↔
      (3 : Int) = 0 ∧ (2 : Int) = 0) :=
  overlapping_fitness_nonpositive { global_overlaps := 3, local_overlaps := 2 }
    (by decide) (by decide) (by decide)

/-! ## AreaEvaluator: theorems -/

theorem area_step_le (s : AreaEvaluator) (c : AreaCall) :
    (s.step c).m_best_ratio ≤ s.m_best_ratio := by
  unfold AreaEvaluator.step AreaEvaluator.evaluate
  dsimp only
  split
  · exact le_of_lt (by assumption)
  · exact le_refl _

theorem area_trace_chain (cs : List AreaCall) :
    ∀ s : AreaEvaluator,
      List.Chain (fun before after => after ≤ before) s.m_best_ratio (s.trace cs) := by
  induction cs with
  | nil => intro s; exact List.Chain.nil
  | cons c cs ih =>
    intro s
    exact List.Chain.cons (area_step_le s c) (ih (s.step c))

/-- C7 (as stated, refuted): a model of `46341` faces, best ratio `1000`, area ratio
`2000 ≥ 1000 * 1.01`. The overlap count is not invoked, but `46341 * 46341` does not
fit in the `int overlaps`, and the call returns `2147479015`, not `-(46341 * 46341)`. -/
theorem area_worst_case_overflows :
    (2000 : ℚ) ≥ AreaEvaluator.construct.m_best_ratio * (101 / 100) ∧
    (AreaEvaluator.construct.evaluate
      { area_ratio := 2000, t_size := 46341, checkOverlaps := 7 }).checkOverlapsCalls = 0 ∧
    (AreaEvaluator.construct.evaluate
      { area_ratio := 2000, t_size := 46341, checkOverlaps := 7 }).fitness = 2147479015 ∧
    (AreaEvaluator.construct.evaluate
      { area_ratio := 2000, t_size := 46341, checkOverlaps := 7 }).fitness
      ≠ -((46341 : Int) * 46341) := by
  norm_num [AreaEvaluator.evaluate, AreaEvaluator.construct, negInt32, wrapInt32]

/-- C7 (amended): for every `AreaEvaluator::evaluate` call whose area ratio satisfies
`ratio ≥ m_best_ratio * 1.01`, `checkOverlaps` is not invoked and the returned fitness
is `-(t_size * t_size)` as computed on 32 bit `int`; it is the exact number
`-(t_size * t_size)` whenever `t_size * t_size` fits in an `int`
(`t_size ≤ 46340`). -/
theorem area_far_ratio_skips_check (s : AreaEvaluator) (c : AreaCall)
    (hfar : c.area_ratio ≥ s.m_best_ratio * (101 / 100)) :
    (s.evaluate c).checkOverlapsCalls = 0 ∧
    (s.evaluate c).fitness = negInt32 (wrapInt32 ((c.t_size : Int) * (c.t_size : Int))) ∧
    ((c.t_size : Int) * (c.t_size : Int) ≤ INT_MAX →
      (s.evaluate c).fitness = -((c.t_size : Int) * (c.t_size : Int))) := by
  have hnot : ¬ c.area_ratio < s.m_best_ratio * (101 / 100) := not_lt.mpr hfar
  have hfit : (s.evaluate c).fitness
      = negInt32 (wrapInt32 ((c.t_size : Int) * (c.t_size : Int))) := by
    simp [AreaEvaluator.evaluate, hnot]
  refine ⟨by simp [AreaEvaluator.evaluate, hnot], hfit, ?_⟩
  intro hsq
  unfold INT_MAX at hsq
  have hnn : (0 : Int) ≤ (c.t_size : Int) * (c.t_size : Int) :=
    mul_nonneg (Int.ofNat_nonneg _) (Int.ofNat_nonneg _)
  rw [hfit, wrapInt32_of_range _ (by omega) hsq]
  unfold negInt32
  exact wrapInt32_of_range _ (by omega) (by omega)

/-- Witness of `area_far_ratio_skips_check`: best ratio `1000`, area ratio `2000`,
a model of `10` faces. -/
theorem area_far_ratio_skips_check_witness :
    (AreaEvaluator.construct.evaluate
      { area_ratio := 2000, t_size := 10, checkOverlaps := 7 }).checkOverlapsCalls = 0 ∧
    (AreaEvaluator.construct.evaluate
      { area_ratio := 2000, t_size := 10, checkOverlaps := 7 }).fitness
      = negInt32 (wrapInt32 (((10 : Nat) : Int) * ((10 : Nat) : Int))) ∧
    ((((10 : Nat) : Int) * ((10 : Nat) : Int)) ≤ INT_MAX →
      (AreaEvaluator.construct.evaluate
        { area_ratio := 2000, t_size := 10, checkOverlaps := 7 }).fitness
        = -(((10 : Nat) : Int) * ((10 : Nat) : Int))) :=
  area_far_ratio_skips_check AreaEvaluator.construct
    { area_ratio := 2000, t_size := 10, checkOverlaps := 7 }
    (by norm_num [AreaEvaluator.construct])

/-- C8: `m_best_ratio` starts at `1000`; one `AreaEvaluator::evaluate` call replaces it
by the area ratio of the call when that ratio is strictly smaller and leaves it alone
otherwise, so it never increases, neither in one call from any state nor along any
sequence of calls made on a freshly constructed evaluator. -/
theorem area_best_ratio_never_increases (cs : List AreaCall) :
    AreaEvaluator.construct.m_best_ratio = 1000 ∧
    (∀ (s : AreaEvaluator) (c : AreaCall),
      (s.evaluate c).state.m_best_ratio
        = (if c.area_ratio < s.m_best_ratio then c.area_ratio else s.m_best_ratio) ∧
      (s.evaluate c).state.m_best_ratio ≤ s.m_best_ratio) ∧
    List.Chain (fun before after => after ≤ before) 1000
      (AreaEvaluator.construct.trace cs) := by
  refine ⟨rfl, ?_, ?_⟩
  · intro s c
    exact ⟨rfl, area_step_le s c⟩
  · exact area_trace_chain cs AreaEvaluator.construct

/-- C10: in any state, a call whose area ratio is non-negative and strictly below
`m_best_ratio` invokes `checkOverlaps` (once), records the ratio as the new best, and
returns minus the value `checkOverlaps` returned: the `int` negation of it, which is
the exact negation for every `int` value other than `INT_MIN`, in particular for
every overlap count. -/
theorem area_new_best_is_checked (s : AreaEvaluator) (c : AreaCall)
    (hnn : 0 ≤ c.area_ratio) (hbest : c.area_ratio < s.m_best_ratio) :
    (s.evaluate c).checkOverlapsCalls = 1 ∧
    (s.evaluate c).state.m_best_ratio = c.area_ratio ∧
    (s.evaluate c).fitness = negInt32 c.checkOverlaps ∧
    (-2147483648 < c.checkOverlaps → c.checkOverlaps ≤ INT_MAX →
      (s.evaluate c).fitness = -c.checkOverlaps) := by
  have hpos : 0 < s.m_best_ratio := lt_of_le_of_lt hnn hbest
  have hnear : c.area_ratio < s.m_best_ratio * (101 / 100) := by
    have : s.m_best_ratio ≤ s.m_best_ratio * (101 / 100) := by
      have h1 : (1 : ℚ) ≤ 101 / 100 := by norm_num
      calc s.m_best_ratio = s.m_best_ratio * 1 := (mul_one _).symm
        _ ≤ s.m_best_ratio * (101 / 100) := mul_le_mul_of_nonneg_left h1 (le_of_lt hpos)
    exact lt_of_lt_of_le hbest this
  have hfit : (s.evaluate c).fitness = negInt32 c.checkOverlaps := by
    simp [AreaEvaluator.evaluate, hnear]
  refine ⟨by simp [AreaEvaluator.evaluate, hnear], by simp [AreaEvaluator.evaluate, hbest],
    hfit, ?_⟩
  intro hlo hhi
  unfold INT_MAX at hhi
  rw [hfit]
  unfold negInt32
  exact wrapInt32_of_range _ (by omega) (by omega)

/-- Witness of `area_new_best_is_checked`: best ratio `1000`, area ratio `3`, and
`checkOverlaps` returning `7`. -/
theorem area_new_best_is_checked_witness :
    (AreaEvaluator.construct.evaluate
      { area_ratio := 3, t_size := 10, checkOverlaps := 7 }).checkOverlapsCalls = 1 ∧
    (AreaEvaluator.construct.evaluate
      { area_ratio := 3, t_size := 10, checkOverlaps := 7 }).state.m_best_ratio = 3 ∧
    (AreaEvaluator.construct.evaluate
      { area_ratio := 3, t_size := 10, checkOverlaps := 7 }).fitness = negInt32 7 ∧
    (-2147483648 < (7 : Int) → (7 : Int) ≤ INT_MAX →
      (AreaEvaluator.construct.evaluate
        { area_ratio := 3, t_size := 10, checkOverlaps := 7 }).fitness = -7) :=
  area_new_best_is_checked AreaEvaluator.construct
    { area_ratio := 3, t_size := 10, checkOverlaps := 7 }
    (by norm_num) (by norm_num [AreaEvaluator.construct])

/-! ## PolygonFitEvaluator: the matching loop -/

theorem matchLoopUpTo_zero (tdb sdb : ContourDB) (matcher : Nat → DMatch) :
    matchLoopUpTo tdb sdb matcher 0 = matchInit tdb sdb := by
  simp [matchLoopUpTo]

theorem matchLoopUpTo_succ (tdb sdb : ContourDB) (matcher : Nat → DMatch) (n : Nat) :
    matchLoopUpTo tdb sdb matcher (n + 1)
      = matchStep tdb sdb matcher (matchLoopUpTo tdb sdb matcher n) n := by
  simp [matchLoopUpTo, List.range_succ, List.foldl_append]

theorem loopInv_upTo (tdb sdb : ContourDB) (matcher : Nat → DMatch) (n : Nat) :
    LoopInv tdb sdb matcher n (matchLoopUpTo tdb sdb matcher n) := by
  induction n with
  | zero =>
    rw [matchLoopUpTo_zero]
    refine ⟨le_refl _, ?_, Or.inl ⟨rfl, ?_⟩⟩
    · intro i hi; exact absurd hi (Nat.not_lt_zero i)
    · intro i hi; exact absurd hi (Nat.not_lt_zero i)
  | succ n ih =>
    rw [matchLoopUpTo_succ]
    obtain ⟨hmax, hlow, hrec⟩ := ih
    generalize matchLoopUpTo tdb sdb matcher n = b at hmax hlow hrec
    unfold matchStep
    by_cases hq : (matcher n).queryIdx < 0
    · -- no match: the locals are kept
      rw [if_pos hq]
      refine ⟨hmax, ?_, ?_⟩
      · intro i hi hm
        rcases Nat.lt_succ_iff_lt_or_eq.mp hi with h | h
        · exact hlow i h hm
        · subst h; exact absurd hq (not_lt.mpr hm)
      · rcases hrec with ⟨hb, hall⟩ | ⟨j, hj, hrest⟩
        · refine Or.inl ⟨hb, ?_⟩
          intro i hi hm
          rcases Nat.lt_succ_iff_lt_or_eq.mp hi with h | h
          · exact hall i h hm
          · subst h; exact absurd hq (not_lt.mpr hm)
        · exact Or.inr ⟨j, Nat.lt_succ_of_lt hj, hrest⟩
    · rw [if_neg hq]
      by_cases hd : (matcher n).distance ≥ b.min_error
      · -- not an improvement: the locals are kept
        rw [if_pos hd]
        refine ⟨hmax, ?_, ?_⟩
        · intro i hi hm
          rcases Nat.lt_succ_iff_lt_or_eq.mp hi with h | h
          · exact hlow i h hm
          · subst h; exact hd
        · rcases hrec with ⟨hb, hall⟩ | ⟨j, hj, hrest⟩
          · refine Or.inl ⟨hb, ?_⟩
            intro i hi hm
            rcases Nat.lt_succ_iff_lt_or_eq.mp hi with h | h
            · exact hall i h hm
            · subst h
              have : b.min_error = FLT_MAX := by rw [hb]; rfl
              rw [← this]; exact hd
          · exact Or.inr ⟨j, Nat.lt_succ_of_lt hj, hrest⟩
      · -- strict improvement: iteration `n` is recorded
        rw [if_neg hd]
        have hlt : (matcher n).distance < b.min_error := not_le.mp hd
        refine ⟨le_of_lt (lt_of_lt_of_le hlt hmax), ?_, Or.inr ⟨n, Nat.lt_succ_self n,
          not_lt.mp hq, rfl, lt_of_lt_of_le hlt hmax, ?_, rfl, rfl⟩⟩
        · intro i hi hm
          rcases Nat.lt_succ_iff_lt_or_eq.mp hi with h | h
          · exact le_trans (le_of_lt hlt) (hlow i h hm)
          · subst h; exact le_refl _
        · intro i hi hm
          exact lt_of_lt_of_le hlt (hlow i hi hm)

theorem loopInv_matchLoop (tdb sdb : ContourDB) (matcher : Nat → DMatch) :
    LoopInv tdb sdb matcher tdb.curve_segments.length (matchLoop tdb sdb matcher) :=
  loopInv_upTo tdb sdb matcher tdb.curve_segments.length

/-- Without any match the loop leaves its locals as initialised. -/
theorem matchLoopUpTo_no_match (tdb sdb : ContourDB) (matcher : Nat → DMatch) (n : Nat)
    (hno : ∀ j, j < n → (matcher j).queryIdx < 0) :
    matchLoopUpTo tdb sdb matcher n = matchInit tdb sdb := by
  induction n with
  | zero => exact matchLoopUpTo_zero tdb sdb matcher
  | succ n ih =>
    rw [matchLoopUpTo_succ, ih (fun j hj => hno j (Nat.lt_succ_of_lt hj))]
    unfold matchStep
    rw [if_pos (hno n (Nat.lt_succ_self n))]

/-! ## PolygonFitEvaluator: reachable states -/

theorem PolygonFitEvaluator.evaluate_of_target (s : PolygonFitEvaluator) (target : CSShape)
    (c : EvalCall) (hs : s.m_poly_ptr = some target) :
    s.evaluate c = some
      { state := s.record (matchLoop target.firstDB c.net.firstDB c.matcher) c.net
        fitness := oneOver (bestDistance target c) } := by
  unfold PolygonFitEvaluator.evaluate bestDistance
  rw [hs]

theorem PolygonFitEvaluator.record_poly (s : PolygonFitEvaluator) (b : BestMatch)
    (net : CSShape) : (s.record b net).m_poly_ptr = s.m_poly_ptr := by
  unfold PolygonFitEvaluator.record
  split <;> rfl

theorem PolygonFitEvaluator.record_le (s : PolygonFitEvaluator) (b : BestMatch)
    (net : CSShape) : (s.record b net).m_min_error ≤ s.m_min_error := by
  unfold PolygonFitEvaluator.record
  split
  · exact le_of_lt (by assumption)
  · exact le_refl _

theorem polygonfit_step_le (s : PolygonFitEvaluator) (c : EvalCall) :
    (s.step c).m_min_error ≤ s.m_min_error := by
  unfold PolygonFitEvaluator.step PolygonFitEvaluator.evaluate
  cases s.m_poly_ptr with
  | none => exact le_refl _
  | some target => exact s.record_le _ _

theorem polygonfit_trace_chain (cs : List EvalCall) :
    ∀ s : PolygonFitEvaluator,
      List.Chain (fun before after => after ≤ before) s.m_min_error (s.trace cs) := by
  induction cs with
  | nil => intro s; exact List.Chain.nil
  | cons c cs ih =>
    intro s
    exact List.Chain.cons (polygonfit_step_le s c) (ih (s.step c))

/-- Every reachable evaluator owns a target and its `m_min_error` is at most the
sentinel. -/
theorem Reachable.inv {s : PolygonFitEvaluator} (h : Reachable s) :
    (∃ target, s.m_poly_ptr = some target) ∧ s.m_min_error ≤ FLT_MAX := by
  induction h with
  | construct target o1 l1 o2 l2 => exact ⟨⟨target, rfl⟩, le_refl _⟩
  | evaluate s c r _ hev ih =>
    obtain ⟨⟨target, ht⟩, hle⟩ := ih
    rw [s.evaluate_of_target target c ht] at hev
    cases hev
    exact ⟨⟨target, by rw [PolygonFitEvaluator.record_poly]; exact ht⟩,
      le_trans (s.record_le _ _) hle⟩

theorem PolygonFitEvaluator.step_of_target (s : PolygonFitEvaluator) (target : CSShape)
    (c : EvalCall) (hs : s.m_poly_ptr = some target) :
    (s.step c).m_poly_ptr = some target ∧
    (s.step c).m_min_error
      = (if bestDistance target c < s.m_min_error then bestDistance target c
         else s.m_min_error) := by
  unfold PolygonFitEvaluator.step
  rw [s.evaluate_of_target target c hs]
  dsimp only
  refine ⟨by rw [PolygonFitEvaluator.record_poly]; exact hs, ?_⟩
  unfold PolygonFitEvaluator.record bestDistance
  split <;> rfl

/-! ## PolygonFitEvaluator: theorems -/

/-- C1: for an evaluator with a target data base and any match results,
`PolygonFitEvaluator::evaluate` returns `1.0 / m`, where `m` is the least element of the
set made of the sentinel `FLT_MAX` and the distances of the target segments
`j < cs_size` whose match has `queryIdx ≥ 0`; when some such distance is below the
sentinel, `m` is the least of the matched distances alone. The returned double is the
finite reciprocal `1 / m` when `m ≠ 0` and `+inf` when `m = 0`. -/
theorem polygonfit_fitness_is_reciprocal_of_least_distance
    (s : PolygonFitEvaluator) (target : CSShape) (c : EvalCall)
    (hs : s.m_poly_ptr = some target) :
    ∃ r m, s.evaluate c = some r ∧ r.fitness = oneOver m ∧
      (m ≠ 0 → r.fitness = DoubleVal.finite (1 / m)) ∧
      (m = 0 → r.fitness = DoubleVal.posInf) ∧
      IsLeast ({FLT_MAX} ∪ {d | ∃ j, j < target.firstDB.curve_segments.length ∧
        0 ≤ (c.matcher j).queryIdx ∧ (c.matcher j).distance = d}) m ∧
      ((∃ j, j < target.firstDB.curve_segments.length ∧ 0 ≤ (c.matcher j).queryIdx ∧
          (c.matcher j).distance < FLT_MAX) →
        IsLeast {d | ∃ j, j < target.firstDB.curve_segments.length ∧
          0 ≤ (c.matcher j).queryIdx ∧ (c.matcher j).distance = d} m) := by
  refine ⟨_, bestDistance target c, s.evaluate_of_target target c hs, rfl, ?_, ?_, ?_, ?_⟩
  · intro hne
    show oneOver (bestDistance target c) = _
    unfold oneOver
    rw [if_neg hne]
  · intro hz
    show oneOver (bestDistance target c) = _
    unfold oneOver
    rw [if_pos hz]
  · obtain ⟨hmax, hlow, hrec⟩ := loopInv_matchLoop target.firstDB c.net.firstDB c.matcher
    constructor
    · rcases hrec with ⟨hb, _⟩ | ⟨j, hj, hm, hd, _⟩
      · left
        show bestDistance target c = FLT_MAX
        unfold bestDistance; rw [hb]; rfl
      · right
        exact ⟨j, hj, hm, hd⟩
    · rintro d (hd | ⟨j, hj, hm, hd⟩)
      · rw [Set.mem_singleton_iff] at hd
        rw [hd]; exact hmax
      · rw [← hd]; exact hlow j hj hm
  · rintro ⟨k, hk, hkm, hkd⟩
    obtain ⟨_, hlow, hrec⟩ := loopInv_matchLoop target.firstDB c.net.firstDB c.matcher
    constructor
    · rcases hrec with ⟨_, hall⟩ | ⟨j, hj, hm, hd, _⟩
      · exact absurd hkd (not_lt.mpr (hall k hk hkm))
      · exact ⟨j, hj, hm, hd⟩
    · rintro d ⟨j, hj, hm, hd⟩
      rw [← hd]; exact hlow j hj hm

/-- Witness of `polygonfit_fitness_is_reciprocal_of_least_distance`: the fresh evaluator
for `exampleTarget` and the call `exampleCall 5`, whose least matched distance is `5`
and whose returned double is `1 / 5`. -/
theorem polygonfit_fitness_is_reciprocal_of_least_distance_witness :
    exampleEvaluator.m_poly_ptr = some exampleTarget ∧
    bestDistance exampleTarget (exampleCall 5) = 5 ∧
    (exampleEvaluator.evaluate (exampleCall 5)).map EvalResult.fitness
      = some (DoubleVal.finite (1 / 5)) ∧
    ∃ r m, exampleEvaluator.evaluate (exampleCall 5) = some r ∧ r.fitness = oneOver m ∧
      (m ≠ 0 → r.fitness = DoubleVal.finite (1 / m)) ∧
      (m = 0 → r.fitness = DoubleVal.posInf) ∧
      IsLeast ({FLT_MAX} ∪ {d | ∃ j, j < exampleTarget.firstDB.curve_segments.length ∧
        0 ≤ ((exampleCall 5).matcher j).queryIdx ∧ ((exampleCall 5).matcher j).distance = d})
        m ∧
      ((∃ j, j < exampleTarget.firstDB.curve_segments.length ∧
          0 ≤ ((exampleCall 5).matcher j).queryIdx ∧
          ((exampleCall 5).matcher j).distance < FLT_MAX) →
        IsLeast {d | ∃ j, j < exampleTarget.firstDB.curve_segments.length ∧
          0 ≤ ((exampleCall 5).matcher j).queryIdx ∧
          ((exampleCall 5).matcher j).distance = d} m) :=
  have hd : bestDistance exampleTarget (exampleCall 5) = 5 := by decide
  have hf : (exampleEvaluator.evaluate (exampleCall 5)).map EvalResult.fitness
      = some (DoubleVal.finite (1 / 5)) := by
    rw [exampleEvaluator.evaluate_of_target exampleTarget (exampleCall 5) rfl, hd]
    simp [oneOver]
  ⟨rfl, hd, hf,
    polygonfit_fitness_is_reciprocal_of_least_distance exampleEvaluator exampleTarget
      (exampleCall 5) rfl⟩

/-- C2: in every evaluator state reachable from construction, a call in which the
matcher reports "no match" (`queryIdx < 0`) for every target segment returns exactly
`1.0 / FLT_MAX` and leaves the whole persistent state (`m_min_error`, the four stored
offsets and lengths, the best net snapshot) as it was. -/
theorem polygonfit_no_match_is_degenerate (s : PolygonFitEvaluator) (hr : Reachable s)
    (c : EvalCall) (hno : ∀ j, j < s.cs_size → (c.matcher j).queryIdx < 0) :
    ∃ r, s.evaluate c = some r ∧ r.fitness = oneOver FLT_MAX ∧
      oneOver FLT_MAX = DoubleVal.finite (1 / FLT_MAX) ∧ r.state = s := by
  obtain ⟨⟨target, ht⟩, hle⟩ := hr.inv
  have hsize : s.cs_size = target.firstDB.curve_segments.length := by
    unfold PolygonFitEvaluator.cs_size; rw [ht]
  have hloop : matchLoop target.firstDB c.net.firstDB c.matcher
      = matchInit target.firstDB c.net.firstDB :=
    matchLoopUpTo_no_match _ _ _ _ (fun j hj => hno j (by rw [hsize]; exact hj))
  refine ⟨_, s.evaluate_of_target target c ht, ?_, ?_, ?_⟩
  · show oneOver (bestDistance target c) = oneOver FLT_MAX
    unfold bestDistance; rw [hloop]; rfl
  · unfold oneOver
    rw [if_neg (by norm_num [FLT_MAX])]
  · show s.record (matchLoop target.firstDB c.net.firstDB c.matcher) c.net = s
    rw [hloop]
    unfold PolygonFitEvaluator.record
    exact if_neg (not_lt.mpr hle)

/-- Witness of `polygonfit_no_match_is_degenerate`: the evaluator for `exampleTarget`
after a first call with best distance `5`, then a call without any match. -/
theorem polygonfit_no_match_is_degenerate_witness :
    Reachable (exampleEvaluator.step (exampleCall 5)) ∧
    (∀ j, j < (exampleEvaluator.step (exampleCall 5)).cs_size →
      (noMatchCall.matcher j).queryIdx < 0) ∧
    ∃ r, (exampleEvaluator.step (exampleCall 5)).evaluate noMatchCall = some r ∧
      r.fitness = oneOver FLT_MAX ∧
      oneOver FLT_MAX = DoubleVal.finite (1 / FLT_MAX) ∧
      r.state = exampleEvaluator.step (exampleCall 5) :=
  have hreach : Reachable (exampleEvaluator.step (exampleCall 5)) :=
    Reachable.evaluate exampleEvaluator (exampleCall 5)
      { state := exampleEvaluator.step (exampleCall 5)
        fitness := oneOver (bestDistance exampleTarget (exampleCall 5)) }
      (Reachable.construct exampleTarget 0 0 0 0) rfl
  have hno : ∀ j, j < (exampleEvaluator.step (exampleCall 5)).cs_size →
      (noMatchCall.matcher j).queryIdx < 0 := fun _ _ => show (-1 : Int) < 0 by decide
  ⟨hreach, hno,
    polygonfit_no_match_is_degenerate (exampleEvaluator.step (exampleCall 5)) hreach
      noMatchCall hno⟩

/-- C3: `m_min_error` is `FLT_MAX` at construction; every `evaluate` call on a reachable
evaluator returns and leaves `m_min_error` less than or equal to its value before the
call, so the values along any sequence of calls never increase. Calls whose best match
distances are `5, 3, 3, 7` leave `m_min_error` at `5, 3, 3, 3`. -/
theorem polygonfit_min_error_never_increases (target : CSShape) (o1 l1 o2 l2 : Int)
    (cs : List EvalCall) :
    (PolygonFitEvaluator.construct target o1 l1 o2 l2).m_min_error = FLT_MAX ∧
    (∀ (s : PolygonFitEvaluator) (c : EvalCall), Reachable s →
      ∃ r, s.evaluate c = some r ∧ r.state.m_min_error ≤ s.m_min_error) ∧
    List.Chain (fun before after => after ≤ before) FLT_MAX
      ((PolygonFitEvaluator.construct target o1 l1 o2 l2).trace cs) ∧
    (∀ c1 c2 c3 c4 : EvalCall,
      bestDistance target c1 = 5 → bestDistance target c2 = 3 →
      bestDistance target c3 = 3 → bestDistance target c4 = 7 →
      (PolygonFitEvaluator.construct target o1 l1 o2 l2).trace [c1, c2, c3, c4]
        = [5, 3, 3, 3]) ∧
    exampleEvaluator.trace [exampleCall 5, exampleCall 3, exampleCall 3, exampleCall 7]
      = [5, 3, 3, 3] := by
  refine ⟨rfl, ?_,
    polygonfit_trace_chain cs (PolygonFitEvaluator.construct target o1 l1 o2 l2),
    ?_, by decide⟩
  · intro s c hr
    obtain ⟨⟨t, ht⟩, _⟩ := hr.inv
    exact ⟨_, s.evaluate_of_target t c ht, s.record_le _ _⟩
  · intro c1 c2 c3 c4 h1 h2 h3 h4
    obtain ⟨p1, e1⟩ := (PolygonFitEvaluator.construct target o1 l1 o2 l2).step_of_target
      target c1 rfl
    obtain ⟨p2, e2⟩ := PolygonFitEvaluator.step_of_target _ target c2 p1
    obtain ⟨p3, e3⟩ := PolygonFitEvaluator.step_of_target _ target c3 p2
    obtain ⟨_, e4⟩ := PolygonFitEvaluator.step_of_target _ target c4 p3
    have m0 : (PolygonFitEvaluator.construct target o1 l1 o2 l2).m_min_error = FLT_MAX := rfl
    rw [h1, m0, if_pos (by norm_num [FLT_MAX])] at e1
    rw [h2, e1, if_pos (by norm_num)] at e2
    rw [h3, e2, if_neg (by norm_num)] at e3
    rw [h4, e3, if_neg (by norm_num)] at e4
    simp only [PolygonFitEvaluator.trace]
    rw [e1, e2, e3, e4]

/-- C4: `evaluate` overwrites the persistent state exactly when the `min_error` of the call
is strictly below the stored `m_min_error`. In that case `m_min_error` becomes that
minimum, the stored offsets and lengths become the `x` and `y` of the best source and
best target segment of the call and the snapshot becomes the net of the call; when the
minimum of the call is greater than or equal to the stored one, the state is unchanged. -/
theorem polygonfit_state_overwritten_iff_strictly_better
    (s : PolygonFitEvaluator) (target : CSShape) (c : EvalCall)
    (hs : s.m_poly_ptr = some target) :
    ∃ r b, s.evaluate c = some r ∧
      b = matchLoop target.firstDB c.net.firstDB c.matcher ∧
      (b.min_error < s.m_min_error →
        r.state =
          { m_poly_ptr := s.m_poly_ptr
            m_best_net_ptr := some c.net
            m_min_error := b.min_error
            best_src_off := b.best_source_curve_segment.x
            best_src_len := b.best_source_curve_segment.y
            best_target_off := b.best_target_curve_segment.x
            best_target_len := b.best_target_curve_segment.y }) ∧
      (s.m_min_error ≤ b.min_error → r.state = s) ∧
      (r.state ≠ s ↔ b.min_error < s.m_min_error) := by
  refine ⟨_, _, s.evaluate_of_target target c hs, rfl, ?_, ?_, ?_⟩
  · intro hlt
    show s.record _ c.net = _
    unfold PolygonFitEvaluator.record
    rw [if_pos hlt]
  · intro hge
    show s.record _ c.net = s
    unfold PolygonFitEvaluator.record
    rw [if_neg (not_lt.mpr hge)]
  · show s.record _ c.net ≠ s ↔ _
    unfold PolygonFitEvaluator.record
    constructor
    · intro hne
      by_contra hnlt
      rw [if_neg hnlt] at hne
      exact hne rfl
    · intro hlt heq
      rw [if_pos hlt] at heq
      have hm := congrArg PolygonFitEvaluator.m_min_error heq
      dsimp only at hm
      exact absurd hlt (by rw [hm]; exact lt_irrefl _)

/-- Witness of `polygonfit_state_overwritten_iff_strictly_better`: the fresh evaluator
for `exampleTarget` and the call `exampleCall 5`. -/
theorem polygonfit_state_overwritten_iff_strictly_better_witness :
    exampleEvaluator.m_poly_ptr = some exampleTarget ∧
    ∃ r b, exampleEvaluator.evaluate (exampleCall 5) = some r ∧
      b = matchLoop exampleTarget.firstDB (exampleCall 5).net.firstDB
        (exampleCall 5).matcher ∧
      (b.min_error < exampleEvaluator.m_min_error →
        r.state =
          { m_poly_ptr := exampleEvaluator.m_poly_ptr
            m_best_net_ptr := some (exampleCall 5).net
            m_min_error := b.min_error
            best_src_off := b.best_source_curve_segment.x
            best_src_len := b.best_source_curve_segment.y
            best_target_off := b.best_target_curve_segment.x
            best_target_len := b.best_target_curve_segment.y }) ∧
      (exampleEvaluator.m_min_error ≤ b.min_error → r.state = exampleEvaluator) ∧
      (r.state ≠ exampleEvaluator ↔ b.min_error < exampleEvaluator.m_min_error) :=
  ⟨rfl, polygonfit_state_overwritten_iff_strictly_better exampleEvaluator exampleTarget
    (exampleCall 5) rfl⟩

/-- C5: when some target segment matches with a distance below the sentinel, the
locals at the end of the loop hold the target segment of the smallest index `j` whose
matched distance is the minimum over all matched target segments, together with the
source segment `source_db.curve_segments[match.queryIdx]` of that same `j`; an equal
distance at a later index does not replace them. -/
theorem polygonfit_first_minimal_match_wins (tdb sdb : ContourDB) (matcher : Nat → DMatch)
    (h : ∃ j, j < tdb.curve_segments.length ∧ 0 ≤ (matcher j).queryIdx ∧
      (matcher j).distance < FLT_MAX) :
    ∃ j, j < tdb.curve_segments.length ∧ 0 ≤ (matcher j).queryIdx ∧
      (matcher j).distance = (matchLoop tdb sdb matcher).min_error ∧
      (∀ i, i < tdb.curve_segments.length → 0 ≤ (matcher i).queryIdx →
        (matchLoop tdb sdb matcher).min_error ≤ (matcher i).distance) ∧
      (∀ i, i < j → 0 ≤ (matcher i).queryIdx →
        (matcher i).distance ≠ (matchLoop tdb sdb matcher).min_error) ∧
      tdb.curve_segments.get? j
        = some (matchLoop tdb sdb matcher).best_target_curve_segment ∧
      (matchLoop tdb sdb matcher).best_source_curve_segment
        = segAt sdb.curve_segments (matcher j).queryIdx := by
  obtain ⟨k, hk, hkm, hkd⟩ := h
  obtain ⟨_, hlow, hrec⟩ := loopInv_matchLoop tdb sdb matcher
  rcases hrec with ⟨_, hall⟩ | ⟨j, hj, hm, hd, _, hfirst, htgt, hsrc⟩
  · exact absurd hkd (not_lt.mpr (hall k hk hkm))
  · refine ⟨j, hj, hm, hd, hlow, ?_, ?_, hsrc⟩
    · intro i hi him heq
      exact absurd heq (ne_of_gt (hfirst i hi him))
    · rw [htgt]
      unfold segAt
      simp [List.getD_eq_getElem?_getD, List.getElem?_eq_getElem hj]

/-- Witness of `polygonfit_first_minimal_match_wins`: `tieCall` on `exampleTarget`,
where both target segments match with distance `4`. -/
theorem polygonfit_first_minimal_match_wins_witness :
    (∃ j, j < exampleTarget.firstDB.curve_segments.length ∧
      0 ≤ (tieCall.matcher j).queryIdx ∧ (tieCall.matcher j).distance < FLT_MAX) ∧
    ∃ j, j < exampleTarget.firstDB.curve_segments.length ∧
      0 ≤ (tieCall.matcher j).queryIdx ∧
      (tieCall.matcher j).distance
        = (matchLoop exampleTarget.firstDB exampleNet.firstDB tieCall.matcher).min_error ∧
      (∀ i, i < exampleTarget.firstDB.curve_segments.length →
        0 ≤ (tieCall.matcher i).queryIdx →
        (matchLoop exampleTarget.firstDB exampleNet.firstDB tieCall.matcher).min_error
          ≤ (tieCall.matcher i).distance) ∧
      (∀ i, i < j → 0 ≤ (tieCall.matcher i).queryIdx →
        (tieCall.matcher i).distance
          ≠ (matchLoop exampleTarget.firstDB exampleNet.firstDB tieCall.matcher).min_error) ∧
      exampleTarget.firstDB.curve_segments.get? j
        = some (matchLoop exampleTarget.firstDB exampleNet.firstDB
            tieCall.matcher).best_target_curve_segment ∧
      (matchLoop exampleTarget.firstDB exampleNet.firstDB
          tieCall.matcher).best_source_curve_segment
        = segAt exampleNet.firstDB.curve_segments (tieCall.matcher j).queryIdx :=
  have h : ∃ j, j < exampleTarget.firstDB.curve_segments.length ∧
      0 ≤ (tieCall.matcher j).queryIdx ∧ (tieCall.matcher j).distance < FLT_MAX :=
    ⟨0, by decide, by decide, by decide⟩
  ⟨h, polygonfit_first_minimal_match_wins exampleTarget.firstDB exampleNet.firstDB
    tieCall.matcher h⟩

/-- C9 (the code at a failing input): after the call `exampleCall 5` on the fresh
evaluator for `exampleTarget` the stored best source segment is `(12, 75)` and the
stored best target segment is `(20, 80)`; the destructor then calls `renderMatching`
with a target length of `75`, the stored source length, not with the stored target
length `80`. Without a recorded net the destructor renders nothing. -/
theorem polygonfit_destructor_passes_source_length_twice :
    (exampleEvaluator.step (exampleCall 5)).best_src_off = 12 ∧
    (exampleEvaluator.step (exampleCall 5)).best_src_len = 75 ∧
    (exampleEvaluator.step (exampleCall 5)).best_target_off = 20 ∧
    (exampleEvaluator.step (exampleCall 5)).best_target_len = 80 ∧
    (exampleEvaluator.step (exampleCall 5)).destructor
      = some { error_in_name := 5, src_off := 12, src_len := 75,
               target_off := 20, target_len := 75 } ∧
    exampleEvaluator.destructor = none := by
  decide

end unfolding
end masc
